import Mathlib

/-!
Shallow embedding of the ASTRAL_NOTES workspace core: the projectService
CRUD methods, the aiWritingCompanion session tracker and the AI personality
registry, as produced by the repository's patch scripts
(fix_project_service.py, fix_services_properly.py, fix_session_interface.py,
fix_personalities.py, fix_personality_complete.py).

Timestamps (ISO strings / Date.now() in the source) are modelled as Nat; the
lexicographic order of ISO-8601 strings agrees with chronological order, so
comparisons carry over.  JavaScript numbers used for session metrics are
modelled as Int so that non-negativity claims are meaningful.  The in-memory
snapshot and the persisted snapshot coincide after each operation because
every mutator ends in saveProjects; each operation returns the resulting
snapshot together with a flag recording whether saveProjects was invoked and
the list of emitted events.
-/

/-- A story, as constructed by createStory in fix_project_service.py. -/
structure Story where
  id : String
  title : String
  description : String
  projectId : String
  content : String
  wordCount : Nat
  type : String
  createdAt : Nat
  updatedAt : Nat
  isArchived : Bool
  order : Nat
deriving DecidableEq, Repr

/-- A character, as constructed by createCharacter in fix_project_service.py.
`age` is `undefined` at creation, hence an Option. -/
structure Character where
  id : String
  name : String
  description : String
  projectId : String
  role : String
  age : Option Nat
  appearance : String
  personality : String
  backstory : String
  goals : String
  createdAt : Nat
  updatedAt : Nat
deriving DecidableEq, Repr

/-- A project.  `stories` and `characters` may be `undefined` in the source
(`project.stories || []` / `if (project.stories)`), modelled as Option. -/
structure Project where
  id : String
  title : String
  description : String
  createdAt : Nat
  updatedAt : Nat
  lastEditedAt : Nat
  wordCount : Nat
  stories : Option (List Story)
  characters : Option (List Character)
deriving DecidableEq, Repr

/-- Modelled from the spec: the partial-update record accepted by
updateProjectSync (the TypeScript type UpdateProjectData is outside the
patched region); it carries the optional fields the spec exercises. -/
structure UpdateProjectData where
  title : Option String
  description : Option String
deriving DecidableEq, Repr

/-- The update record passed to updateStory (`updates: any` in the source);
it carries the optional story fields the spec exercises. -/
structure StoryUpdates where
  title : Option String
  description : Option String
  content : Option String
deriving DecidableEq, Repr

/-- The update record passed to updateCharacter (`updates: any`). -/
structure CharacterUpdates where
  name : Option String
  description : Option String
  role : Option String
deriving DecidableEq, Repr

/-- Events emitted through the store's EventBus. -/
inductive StoreEvent where
  | projectUpdated (p : Project)
deriving DecidableEq, Repr

/-- Outcome of one store operation: the returned value, the snapshot after
the operation, whether storageService.saveProjects was called, and the
events emitted. -/
structure StoreStep (α : Type) where
  ret : α
  projects : List Project
  saved : Bool
  events : List StoreEvent
deriving Repr

/-- Replace the first element satisfying `pred` by its image under `upd`,
returning the new list and the updated element; `none` when no element
matches.  This is the `findIndex` / index-assignment pattern of the source. -/
def replaceFirst {α : Type} (pred : α → Bool) (upd : α → α) : List α → Option (List α × α)
  | [] => none
  | x :: xs =>
    if pred x then some (upd x :: xs, upd x)
    else (replaceFirst pred upd xs).map (fun r => (x :: r.1, r.2))

/-- Remove the first element satisfying `pred` (the `findIndex` / `splice`
pattern of the source); `none` when no element matches. -/
def removeFirst {α : Type} (pred : α → Bool) : List α → Option (List α)
  | [] => none
  | x :: xs =>
    if pred x then some xs
    else (removeFirst pred xs).map (fun r => x :: r)

/-- `updateProjectSync(id, data)` from fix_project_service.py (new_update):
find the project by id (null on miss), spread the partial over it, stamp
updatedAt and lastEditedAt to now, recompute wordCount when
`data.title || data.description` is truthy, write back, save, emit
project-updated.  `calcWC` stands for this.calculateProjectWordCount, which is
outside the patched region; it reads the (not yet saved) snapshot. -/
def updateProjectSync (calcWC : List Project → String → Nat) (now : Nat)
    (projects : List Project) (id : String) (data : UpdateProjectData) :
    StoreStep (Option Project) :=
  let upd : Project → Project := fun p =>
    let merged : Project :=
      { p with
        title := data.title.getD p.title
        description := data.description.getD p.description
        updatedAt := now
        lastEditedAt := now }
    if (data.title.getD "") ≠ "" ∨ (data.description.getD "") ≠ "" then
      { merged with wordCount := calcWC projects id }
    else merged
  match replaceFirst (fun p => p.id == id) upd projects with
  | some (ps, u) => ⟨some u, ps, true, [StoreEvent.projectUpdated u]⟩
  | none => ⟨none, projects, false, []⟩

/-- The story literal built at the top of createStory. -/
def mkStory (newId : String) (now : Nat) (title : String)
    (description : Option String) (projectId : String) : Story :=
  { id := newId
    title := title
    description := description.getD ""
    projectId := projectId
    content := ""
    wordCount := 0
    type := "story"
    createdAt := now
    updatedAt := now
    isArchived := false
    order := 0 }

/-- `createStory(data)` from fix_project_service.py (new_create_story):
build the story, then look the project up by id; when found, push the story
onto its (lazily initialised) stories, stamp the project's updatedAt and
save; when not found, no write happens; the story is returned either way. -/
def createStory (newId : String) (now : Nat) (projects : List Project)
    (title : String) (description : Option String) (projectId : String) :
    StoreStep Story :=
  let story := mkStory newId now title description projectId
  match replaceFirst (fun p => p.id == projectId)
      (fun p => { p with
        stories := some ((p.stories.getD []) ++ [story])
        updatedAt := now }) projects with
  | some (ps, _) => ⟨story, ps, true, []⟩
  | none => ⟨story, projects, false, []⟩

/-- The object-spread merge inside updateStory. -/
def mergeStory (u : StoryUpdates) (now : Nat) (s : Story) : Story :=
  { s with
    title := u.title.getD s.title
    description := u.description.getD s.description
    content := u.content.getD s.content
    updatedAt := now }

/-- The project scan of updateStory: walk the projects in order, skip those
with undefined stories, and in the first project whose stories contain the
id replace that story and stamp the project's updatedAt. -/
def updateStoryGo (sid : String) (u : StoryUpdates) (now : Nat) :
    List Project → Option (List Project × Story)
  | [] => none
  | p :: ps =>
    match p.stories with
    | some l =>
      match replaceFirst (fun s => s.id == sid) (mergeStory u now) l with
      | some (l2, st) =>
        some (({ p with stories := some l2, updatedAt := now }) :: ps, st)
      | none => (updateStoryGo sid u now ps).map (fun r => (p :: r.1, r.2))
    | none => (updateStoryGo sid u now ps).map (fun r => (p :: r.1, r.2))

/-- `updateStory(storyId, updates)` from fix_project_service.py
(new_update_story): scan every project's story list for the id; on first
match merge the updates, stamp updatedAt on story and project, save and
return the story; otherwise return null without saving. -/
def updateStory (now : Nat) (projects : List Project) (sid : String)
    (u : StoryUpdates) : StoreStep (Option Story) :=
  match updateStoryGo sid u now projects with
  | some (ps, st) => ⟨some st, ps, true, []⟩
  | none => ⟨none, projects, false, []⟩

/-- The project scan of deleteStory (fix_services_properly.py,
new_delete_story): splice the first story with the id out of its project's
list and stamp the project's updatedAt. -/
def deleteStoryGo (sid : String) (now : Nat) :
    List Project → Option (List Project)
  | [] => none
  | p :: ps =>
    match p.stories with
    | some l =>
      match removeFirst (fun s => s.id == sid) l with
      | some l2 =>
        some (({ p with stories := some l2, updatedAt := now }) :: ps)
      | none => (deleteStoryGo sid now ps).map (fun r => p :: r)
    | none => (deleteStoryGo sid now ps).map (fun r => p :: r)

/-- `deleteStory(storyId)`: scan-and-splice; true when a story was removed
(and the snapshot saved), false otherwise. -/
def deleteStory (now : Nat) (projects : List Project) (sid : String) :
    StoreStep Bool :=
  match deleteStoryGo sid now projects with
  | some ps => ⟨true, ps, true, []⟩
  | none => ⟨false, projects, false, []⟩

/-- The character literal built at the top of createCharacter. -/
def mkCharacter (newId : String) (now : Nat) (name : String)
    (description : Option String) (projectId : String) : Character :=
  { id := newId
    name := name
    description := description.getD ""
    projectId := projectId
    role := "supporting"
    age := none
    appearance := ""
    personality := ""
    backstory := ""
    goals := ""
    createdAt := now
    updatedAt := now }

/-- `createCharacter(data)` from fix_project_service.py
(new_create_character): mirror image of createStory on `characters`. -/
def createCharacter (newId : String) (now : Nat) (projects : List Project)
    (name : String) (description : Option String) (projectId : String) :
    StoreStep Character :=
  let ch := mkCharacter newId now name description projectId
  match replaceFirst (fun p => p.id == projectId)
      (fun p => { p with
        characters := some ((p.characters.getD []) ++ [ch])
        updatedAt := now }) projects with
  | some (ps, _) => ⟨ch, ps, true, []⟩
  | none => ⟨ch, projects, false, []⟩

/-- The object-spread merge inside updateCharacter. -/
def mergeCharacter (u : CharacterUpdates) (now : Nat) (c : Character) :
    Character :=
  { c with
    name := u.name.getD c.name
    description := u.description.getD c.description
    role := u.role.getD c.role
    updatedAt := now }

/-- The project scan of updateCharacter (new_update_character). -/
def updateCharacterGo (cid : String) (u : CharacterUpdates) (now : Nat) :
    List Project → Option (List Project × Character)
  | [] => none
  | p :: ps =>
    match p.characters with
    | some l =>
      match replaceFirst (fun c => c.id == cid) (mergeCharacter u now) l with
      | some (l2, ch) =>
        some (({ p with characters := some l2, updatedAt := now }) :: ps, ch)
      | none => (updateCharacterGo cid u now ps).map (fun r => (p :: r.1, r.2))
    | none => (updateCharacterGo cid u now ps).map (fun r => (p :: r.1, r.2))

/-- `updateCharacter(characterId, updates)` from fix_project_service.py. -/
def updateCharacter (now : Nat) (projects : List Project) (cid : String)
    (u : CharacterUpdates) : StoreStep (Option Character) :=
  match updateCharacterGo cid u now projects with
  | some (ps, ch) => ⟨some ch, ps, true, []⟩
  | none => ⟨none, projects, false, []⟩

/-- The project scan of deleteCharacter (new_delete_character). -/
def deleteCharacterGo (cid : String) (now : Nat) :
    List Project → Option (List Project)
  | [] => none
  | p :: ps =>
    match p.characters with
    | some l =>
      match removeFirst (fun c => c.id == cid) l with
      | some l2 =>
        some (({ p with characters := some l2, updatedAt := now }) :: ps)
      | none => (deleteCharacterGo cid now ps).map (fun r => p :: r)
    | none => (deleteCharacterGo cid now ps).map (fun r => p :: r)

/-- `deleteCharacter(characterId)` from fix_project_service.py. -/
def deleteCharacter (now : Nat) (projects : List Project) (cid : String) :
    StoreStep Bool :=
  match deleteCharacterGo cid now projects with
  | some ps => ⟨true, ps, true, []⟩
  | none => ⟨false, projects, false, []⟩

/-- Whether some project of the snapshot carries the given id. -/
def projIdPresent (projects : List Project) (id : String) : Bool :=
  projects.any (fun p => p.id == id)

/-- Whether a project's (possibly undefined) story list contains the id. -/
def projHasStory (sid : String) (p : Project) : Bool :=
  match p.stories with
  | some l => l.any (fun s => s.id == sid)
  | none => false

/-- Whether a project's (possibly undefined) character list contains the id. -/
def projHasCharacter (cid : String) (p : Project) : Bool :=
  match p.characters with
  | some l => l.any (fun c => c.id == cid)
  | none => false

/-- The four-axis trait vector of an AI personality
(fix_personality_complete.py). -/
structure Traits where
  encouraging : Nat
  critical : Nat
  creative : Nat
  analytical : Nat
deriving DecidableEq, Repr

/-- An AI personality profile, per the AIPersonality interface written by
fix_personality_complete.py. -/
structure AIPersonality where
  id : String
  name : String
  description : String
  role : String
  traits : Traits
  specialties : List String
  communicationStyle : String
  greetingStyle : String
  feedbackStyle : String
  isActive : Bool
deriving DecidableEq, Repr

/-- The five-profile registry exactly as emitted by
fix_personality_complete.py's generated initialisation: description is the
second word of the name followed by " personality", greetingStyle copies
communicationStyle, feedbackStyle is "constructive" for all, and only the
mentor starts active. -/
def initialPersonalities : List AIPersonality :=
  [ { id := "mentor", name := "Wise Mentor",
      description := "Mentor personality", role := "mentor",
      traits := { encouraging := 80, critical := 20, creative := 60, analytical := 70 },
      specialties := ["guidance", "motivation", "story_structure"],
      communicationStyle := "supportive", greetingStyle := "supportive",
      feedbackStyle := "constructive", isActive := true },
    { id := "critic", name := "Analytical Critic",
      description := "Critic personality", role := "critic",
      traits := { encouraging := 30, critical := 90, creative := 40, analytical := 95 },
      specialties := ["grammar", "style_analysis", "plot_holes"],
      communicationStyle := "formal", greetingStyle := "formal",
      feedbackStyle := "constructive", isActive := false },
    { id := "cheerleader", name := "Enthusiastic Cheerleader",
      description := "Cheerleader personality", role := "cheerleader",
      traits := { encouraging := 95, critical := 10, creative := 75, analytical := 30 },
      specialties := ["motivation", "confidence_building", "encouragement"],
      communicationStyle := "playful", greetingStyle := "playful",
      feedbackStyle := "constructive", isActive := false },
    { id := "collaborator", name := "Creative Collaborator",
      description := "Collaborator personality", role := "collaborator",
      traits := { encouraging := 70, critical := 40, creative := 90, analytical := 60 },
      specialties := ["brainstorming", "idea_generation", "creative_prompts"],
      communicationStyle := "casual", greetingStyle := "casual",
      feedbackStyle := "constructive", isActive := false },
    { id := "editor", name := "Professional Editor",
      description := "Editor personality", role := "editor",
      traits := { encouraging := 50, critical := 80, creative := 30, analytical := 85 },
      specialties := ["editing", "proofreading", "structure"],
      communicationStyle := "direct", greetingStyle := "direct",
      feedbackStyle := "constructive", isActive := false } ]

/-- Modelled from the spec: `setActivePersonality(id)` is not among the
patched regions in this repository; per spec section 4.5, an unknown id
no-ops, otherwise isActive is cleared on all profiles and set exclusively on
the target. -/
def setActivePersonality (ps : List AIPersonality) (id : String) :
    List AIPersonality :=
  if ps.any (fun p => p.id == id) then
    ps.map (fun p => { p with isActive := p.id == id })
  else ps

/-- Number of profiles whose isActive flag is set. -/
def countActive (ps : List AIPersonality) : Nat :=
  (ps.filter (fun p => p.isActive)).length

/-- The ids of the active profiles, used to speak about which one is active. -/
def activeIds (ps : List AIPersonality) : List String :=
  (ps.filter (fun p => p.isActive)).map (fun p => p.id)

/-- A writing session, per the WritingSession interface written by
fix_session_interface.py.  Suggestion and feedback payloads are opaque to
this core and are modelled as strings. -/
structure WritingSession where
  id : String
  title : String
  contentId : Option String
  mood : Option String
  startTime : Nat
  endTime : Option Nat
  content : String
  wordCount : Int
  totalWords : Int
  wordsAdded : Int
  timeSpent : Int
  productivity : Int
  suggestions : List String
  feedback : List String
  aiInteractions : Nat
  isActive : Bool
deriving DecidableEq, Repr

/-- Modelled from the spec: `validateMood` is not among the patched regions;
per spec section 4.4 it returns the candidate when it belongs to an
enumerated allowed vocabulary and nothing otherwise.  The vocabulary is a
parameter, since its enumeration is outside the patched code. -/
def validateMood (vocab : List String) (candidate : Option String) :
    Option String :=
  match candidate with
  | some m => if vocab.contains m then some m else none
  | none => none

/-- JavaScript `x || d` on a possibly-undefined string: undefined and the
empty string are falsy. -/
def jsOrString (x : Option String) (d : String) : String :=
  match x with
  | some s => if s = "" then d else s
  | none => d

/-- `startWritingSession(title, contentId?, mood?)` as patched by
fix_session_interface.py (new_session_creation): id from the clock and a
random suffix, mood = validateMood(mood) || neutral, startTime = now, empty
content, and wordCount, totalWords, wordsAdded, timeSpent, productivity all
zero.  The trailing fields of the literal (suggestions, feedback,
aiInteractions, isActive) lie outside the patched region and are modelled
from the spec: empty lists, zero interactions, isActive = true. -/
def startWritingSession (vocab : List String) (title : String)
    (contentId : Option String) (mood : Option String) (now : Nat)
    (rand : String) : WritingSession :=
  { id := "session_" ++ toString now ++ "_" ++ rand
    title := title
    contentId := contentId
    mood := some (jsOrString (validateMood vocab mood) "neutral")
    startTime := now
    endTime := none
    content := ""
    wordCount := 0
    totalWords := 0
    wordsAdded := 0
    timeSpent := 0
    productivity := 0
    suggestions := []
    feedback := []
    aiInteractions := 0
    isActive := true }

/-- Modelled from the spec: the session word counter derives wordCount from
the current content (whitespace-separated words). -/
def countWords (content : String) : Int :=
  ((content.splitOn " ").filter (fun w => w ≠ "")).length

/-- Modelled from the spec (section 4.4): the derived-metric recomputation
run whenever session content changes.  wordsAdded = max(0, wordCount −
totalWords-at-last-checkpoint), and totalWords accumulates the words written
so far, advancing monotonically regardless of deletions. -/
def updateSessionContent (s : WritingSession) (newContent : String) :
    WritingSession :=
  let wc := countWords newContent
  let added := max 0 (wc - s.totalWords)
  { s with
    content := newContent
    wordCount := wc
    wordsAdded := added
    totalWords := s.totalWords + added }

/-! ## Generic lemmas about the first-match scan patterns -/

theorem replaceFirst_eq_none {α : Type} {pred : α → Bool} {upd : α → α}
    {l : List α} (h : ∀ x ∈ l, pred x = false) :
    replaceFirst pred upd l = none := by
  induction l with
  | nil => rfl
  | cons x xs ih =>
    have hx := h x (List.mem_cons_self x xs)
    have ih2 := ih (fun y hy => h y (List.mem_cons_of_mem x hy))
    simp [replaceFirst, hx, ih2]

theorem replaceFirst_append_hit {α : Type} {pred : α → Bool} {upd : α → α}
    {pre post : List α} {x : α}
    (hpre : ∀ y ∈ pre, pred y = false) (hx : pred x = true) :
    replaceFirst pred upd (pre ++ x :: post) =
      some (pre ++ upd x :: post, upd x) := by
  induction pre with
  | nil => simp [replaceFirst, hx]
  | cons y ys ih =>
    have hy := hpre y (List.mem_cons_self y ys)
    have ih2 := ih (fun z hz => hpre z (List.mem_cons_of_mem y hz))
    simp [replaceFirst, hy, ih2]

theorem removeFirst_eq_none {α : Type} {pred : α → Bool}
    {l : List α} (h : ∀ x ∈ l, pred x = false) :
    removeFirst pred l = none := by
  induction l with
  | nil => rfl
  | cons x xs ih =>
    have hx := h x (List.mem_cons_self x xs)
    have ih2 := ih (fun y hy => h y (List.mem_cons_of_mem x hy))
    simp [removeFirst, hx, ih2]

theorem removeFirst_append_hit {α : Type} {pred : α → Bool}
    {pre post : List α} {x : α}
    (hpre : ∀ y ∈ pre, pred y = false) (hx : pred x = true) :
    removeFirst pred (pre ++ x :: post) = some (pre ++ post) := by
  induction pre with
  | nil => simp [removeFirst, hx]
  | cons y ys ih =>
    have hy := hpre y (List.mem_cons_self y ys)
    have ih2 := ih (fun z hz => hpre z (List.mem_cons_of_mem y hz))
    simp [removeFirst, hy, ih2]

/-! ## Characterisations of the nested project scans -/

theorem updateStoryGo_eq_none {sid : String} {u : StoryUpdates} {now : Nat}
    {l : List Project} (h : ∀ p ∈ l, projHasStory sid p = false) :
    updateStoryGo sid u now l = none := by
  induction l with
  | nil => rfl
  | cons p ps ih =>
    have hp := h p (List.mem_cons_self p ps)
    have ih2 := ih (fun q hq => h q (List.mem_cons_of_mem p hq))
    cases hps : p.stories with
    | none => simp [updateStoryGo, hps, ih2]
    | some st =>
      have hnone : ∀ s ∈ st, (s.id == sid) = false := by
        intro s hs
        have h2 := hp
        simp [projHasStory, hps] at h2
        simpa using h2 s hs
      simp [updateStoryGo, hps, replaceFirst_eq_none hnone, ih2]

theorem updateStoryGo_append_hit {sid : String} {u : StoryUpdates} {now : Nat}
    {pre post : List Project} {p : Project} {spre spost : List Story}
    {s0 : Story}
    (hpre : ∀ q ∈ pre, projHasStory sid q = false)
    (hps : p.stories = some (spre ++ s0 :: spost))
    (hspre : ∀ t ∈ spre, t.id ≠ sid) (hs0 : s0.id = sid) :
    updateStoryGo sid u now (pre ++ p :: post) =
      some (pre ++ ({ p with
          stories := some (spre ++ mergeStory u now s0 :: spost)
          updatedAt := now }) :: post, mergeStory u now s0) := by
  induction pre with
  | nil =>
    have hb : ∀ t ∈ spre, (t.id == sid) = false := fun t ht => by
      simp [hspre t ht]
    have hx : (s0.id == sid) = true := by simp [hs0]
    simp [updateStoryGo, hps, replaceFirst_append_hit hb hx]
  | cons q qs ih =>
    have hq := hpre q (List.mem_cons_self q qs)
    have ih2 := ih (fun r hr => hpre r (List.mem_cons_of_mem q hr))
    cases hqs : q.stories with
    | none => simp [updateStoryGo, hqs, ih2]
    | some st =>
      have hnone : ∀ s ∈ st, (s.id == sid) = false := by
        intro s hs
        have h2 := hq
        simp [projHasStory, hqs] at h2
        simpa using h2 s hs
      simp [updateStoryGo, hqs, replaceFirst_eq_none hnone, ih2]

theorem deleteStoryGo_eq_none {sid : String} {now : Nat}
    {l : List Project} (h : ∀ p ∈ l, projHasStory sid p = false) :
    deleteStoryGo sid now l = none := by
  induction l with
  | nil => rfl
  | cons p ps ih =>
    have hp := h p (List.mem_cons_self p ps)
    have ih2 := ih (fun q hq => h q (List.mem_cons_of_mem p hq))
    cases hps : p.stories with
    | none => simp [deleteStoryGo, hps, ih2]
    | some st =>
      have hnone : ∀ s ∈ st, (s.id == sid) = false := by
        intro s hs
        have h2 := hp
        simp [projHasStory, hps] at h2
        simpa using h2 s hs
      simp [deleteStoryGo, hps, removeFirst_eq_none hnone, ih2]

theorem deleteStoryGo_append_hit {sid : String} {now : Nat}
    {pre post : List Project} {p : Project} {spre spost : List Story}
    {s0 : Story}
    (hpre : ∀ q ∈ pre, projHasStory sid q = false)
    (hps : p.stories = some (spre ++ s0 :: spost))
    (hspre : ∀ t ∈ spre, t.id ≠ sid) (hs0 : s0.id = sid) :
    deleteStoryGo sid now (pre ++ p :: post) =
      some (pre ++ ({ p with
          stories := some (spre ++ spost)
          updatedAt := now }) :: post) := by
  induction pre with
  | nil =>
    have hb : ∀ t ∈ spre, (t.id == sid) = false := fun t ht => by
      simp [hspre t ht]
    have hx : (s0.id == sid) = true := by simp [hs0]
    simp [deleteStoryGo, hps, removeFirst_append_hit hb hx]
  | cons q qs ih =>
    have hq := hpre q (List.mem_cons_self q qs)
    have ih2 := ih (fun r hr => hpre r (List.mem_cons_of_mem q hr))
    cases hqs : q.stories with
    | none => simp [deleteStoryGo, hqs, ih2]
    | some st =>
      have hnone : ∀ s ∈ st, (s.id == sid) = false := by
        intro s hs
        have h2 := hq
        simp [projHasStory, hqs] at h2
        simpa using h2 s hs
      simp [deleteStoryGo, hqs, removeFirst_eq_none hnone, ih2]

theorem updateCharacterGo_eq_none {cid : String} {u : CharacterUpdates}
    {now : Nat} {l : List Project}
    (h : ∀ p ∈ l, projHasCharacter cid p = false) :
    updateCharacterGo cid u now l = none := by
  induction l with
  | nil => rfl
  | cons p ps ih =>
    have hp := h p (List.mem_cons_self p ps)
    have ih2 := ih (fun q hq => h q (List.mem_cons_of_mem p hq))
    cases hps : p.characters with
    | none => simp [updateCharacterGo, hps, ih2]
    | some st =>
      have hnone : ∀ c ∈ st, (c.id == cid) = false := by
        intro c hc
        have h2 := hp
        simp [projHasCharacter, hps] at h2
        simpa using h2 c hc
      simp [updateCharacterGo, hps, replaceFirst_eq_none hnone, ih2]

theorem updateCharacterGo_append_hit {cid : String} {u : CharacterUpdates}
    {now : Nat} {pre post : List Project} {p : Project}
    {cpre cpost : List Character} {c0 : Character}
    (hpre : ∀ q ∈ pre, projHasCharacter cid q = false)
    (hps : p.characters = some (cpre ++ c0 :: cpost))
    (hcpre : ∀ t ∈ cpre, t.id ≠ cid) (hc0 : c0.id = cid) :
    updateCharacterGo cid u now (pre ++ p :: post) =
      some (pre ++ ({ p with
          characters := some (cpre ++ mergeCharacter u now c0 :: cpost)
          updatedAt := now }) :: post, mergeCharacter u now c0) := by
  induction pre with
  | nil =>
    have hb : ∀ t ∈ cpre, (t.id == cid) = false := fun t ht => by
      simp [hcpre t ht]
    have hx : (c0.id == cid) = true := by simp [hc0]
    simp [updateCharacterGo, hps, replaceFirst_append_hit hb hx]
  | cons q qs ih =>
    have hq := hpre q (List.mem_cons_self q qs)
    have ih2 := ih (fun r hr => hpre r (List.mem_cons_of_mem q hr))
    cases hqs : q.characters with
    | none => simp [updateCharacterGo, hqs, ih2]
    | some st =>
      have hnone : ∀ c ∈ st, (c.id == cid) = false := by
        intro c hc
        have h2 := hq
        simp [projHasCharacter, hqs] at h2
        simpa using h2 c hc
      simp [updateCharacterGo, hqs, replaceFirst_eq_none hnone, ih2]

theorem deleteCharacterGo_eq_none {cid : String} {now : Nat}
    {l : List Project} (h : ∀ p ∈ l, projHasCharacter cid p = false) :
    deleteCharacterGo cid now l = none := by
  induction l with
  | nil => rfl
  | cons p ps ih =>
    have hp := h p (List.mem_cons_self p ps)
    have ih2 := ih (fun q hq => h q (List.mem_cons_of_mem p hq))
    cases hps : p.characters with
    | none => simp [deleteCharacterGo, hps, ih2]
    | some st =>
      have hnone : ∀ c ∈ st, (c.id == cid) = false := by
        intro c hc
        have h2 := hp
        simp [projHasCharacter, hps] at h2
        simpa using h2 c hc
      simp [deleteCharacterGo, hps, removeFirst_eq_none hnone, ih2]

theorem deleteCharacterGo_append_hit {cid : String} {now : Nat}
    {pre post : List Project} {p : Project}
    {cpre cpost : List Character} {c0 : Character}
    (hpre : ∀ q ∈ pre, projHasCharacter cid q = false)
    (hps : p.characters = some (cpre ++ c0 :: cpost))
    (hcpre : ∀ t ∈ cpre, t.id ≠ cid) (hc0 : c0.id = cid) :
    deleteCharacterGo cid now (pre ++ p :: post) =
      some (pre ++ ({ p with
          characters := some (cpre ++ cpost)
          updatedAt := now }) :: post) := by
  induction pre with
  | nil =>
    have hb : ∀ t ∈ cpre, (t.id == cid) = false := fun t ht => by
      simp [hcpre t ht]
    have hx : (c0.id == cid) = true := by simp [hc0]
    simp [deleteCharacterGo, hps, removeFirst_append_hit hb hx]
  | cons q qs ih =>
    have hq := hpre q (List.mem_cons_self q qs)
    have ih2 := ih (fun r hr => hpre r (List.mem_cons_of_mem q hr))
    cases hqs : q.characters with
    | none => simp [deleteCharacterGo, hqs, ih2]
    | some st =>
      have hnone : ∀ c ∈ st, (c.id == cid) = false := by
        intro c hc
        have h2 := hq
        simp [projHasCharacter, hqs] at h2
        simpa using h2 c hc
      simp [deleteCharacterGo, hqs, removeFirst_eq_none hnone, ih2]

/-! ## C1: updateProjectSync -/

/-- Fixture project for concrete evaluations. -/
def cexProject : Project :=
  { id := "p1", title := "Old", description := "d", createdAt := 0,
    updatedAt := 0, lastEditedAt := 0, wordCount := 5,
    stories := none, characters := none }

/-- Fixture stand-in for calculateProjectWordCount, returning 7. -/
def cexCalc : List Project → String → Nat := fun _ _ => 7

/-- Counterexample to claim C1: the partial sets the title to the empty string — a
change from "Old" — yet wordCount is not recomputed (the source guards the
recomputation by JavaScript truthiness of data.title / data.description, and
the empty string is falsy): the stored wordCount stays 5 although the word
counter yields 7. -/
theorem C1_counterexample :
    cexProject.title = "Old" ∧ cexProject.wordCount = 5 ∧
    cexCalc [cexProject] "p1" = 7 ∧
    (updateProjectSync cexCalc 10 [cexProject] "p1"
        ⟨some "", none⟩).ret.map Project.title = some "" ∧
    (updateProjectSync cexCalc 10 [cexProject] "p1"
        ⟨some "", none⟩).ret.map Project.wordCount = some 5 := by
  refine ⟨rfl, rfl, rfl, ?_, ?_⟩ <;> rfl

/-- Claim C1 (amended): for an id present in the snapshot, updateProjectSync
merges the partial fields, stamps updatedAt and lastEditedAt to now,
recomputes wordCount when the partial carries a truthy (present and
non-empty) title or description, persists the snapshot and emits
project-updated with the updated project, which it returns; for an absent id
it returns null, saves nothing and emits nothing. -/
theorem C1_updateProjectSync :
    (∀ (calcWC : List Project → String → Nat) (now : Nat)
        (pre post : List Project) (p : Project) (id : String)
        (data : UpdateProjectData),
      (∀ q ∈ pre, q.id ≠ id) → p.id = id →
      (let u : Project :=
        { p with
          title := data.title.getD p.title
          description := data.description.getD p.description
          updatedAt := now
          lastEditedAt := now
          wordCount :=
            if (data.title.getD "") ≠ "" ∨ (data.description.getD "") ≠ ""
            then calcWC (pre ++ p :: post) id else p.wordCount }
      updateProjectSync calcWC now (pre ++ p :: post) id data =
        ⟨some u, pre ++ u :: post, true, [StoreEvent.projectUpdated u]⟩)) ∧
    (∀ (calcWC : List Project → String → Nat) (now : Nat)
        (projects : List Project) (id : String) (data : UpdateProjectData),
      (∀ q ∈ projects, q.id ≠ id) →
      updateProjectSync calcWC now projects id data =
        ⟨none, projects, false, []⟩) := by
  constructor
  · intro calcWC now pre post p id data hpre hp
    have hb : ∀ q ∈ pre, ((fun q : Project => q.id == id) q) = false :=
      fun q hq => by simp [hpre q hq]
    have hx : ((fun q : Project => q.id == id) p) = true := by simp [hp]
    simp only [updateProjectSync, replaceFirst_append_hit hb hx]
    by_cases hc : (data.title.getD "") ≠ "" ∨ (data.description.getD "") ≠ ""
    · simp [hc]
    · simp [hc]
  · intro calcWC now projects id data habs
    have hb : ∀ q ∈ projects, ((fun q : Project => q.id == id) q) = false :=
      fun q hq => by simp [habs q hq]
    simp [updateProjectSync, replaceFirst_eq_none hb]

/-- Concrete instantiation of C1_updateProjectSync on cexProject. -/
theorem C1_updateProjectSync_witness :
    updateProjectSync cexCalc 10 [cexProject] "p1" ⟨some "New", none⟩ =
      ⟨some { cexProject with
          title := "New", updatedAt := 10, lastEditedAt := 10,
          wordCount := 7 },
        [{ cexProject with
          title := "New", updatedAt := 10, lastEditedAt := 10,
          wordCount := 7 }], true,
        [StoreEvent.projectUpdated { cexProject with
          title := "New", updatedAt := 10, lastEditedAt := 10,
          wordCount := 7 }]⟩ ∧
    updateProjectSync cexCalc 10 [cexProject] "zz" ⟨some "New", none⟩ =
      ⟨none, [cexProject], false, []⟩ := by
  constructor
  · have h := C1_updateProjectSync.1 cexCalc 10 [] [] cexProject "p1"
      ⟨some "New", none⟩ (by simp) rfl
    simpa [cexProject, cexCalc] using h
  · exact C1_updateProjectSync.2 cexCalc 10 [cexProject] "zz"
      ⟨some "New", none⟩ (by simp [cexProject])

/-! ## C2: updateStory -/

/-- Fixture stories and project for concrete evaluations. -/
def wStoryA : Story := mkStory "s1" 1 "Chapter 1" none "p1"

def wStoryB : Story := mkStory "s2" 1 "Chapter 2" none "p1"

def wCharA : Character := mkCharacter "c1" 1 "Alice" none "p1"

def wProject : Project :=
  { id := "p1", title := "Novel A", description := "", createdAt := 0,
    updatedAt := 1, lastEditedAt := 0, wordCount := 0,
    stories := some [wStoryA, wStoryB], characters := some [wCharA] }

/-- Claim C2: updateStory scans the projects in order for the first story list
containing the id; on a match it merges the updates into that story, stamps
its updatedAt, persists the resulting snapshot and returns the updated
story; when no project contains the id it returns null and the snapshot is
untouched and unsaved. -/
theorem C2_updateStory :
    (∀ (now : Nat) (pre post : List Project) (p : Project)
        (spre spost : List Story) (s0 : Story) (sid : String)
        (u : StoryUpdates),
      (∀ q ∈ pre, projHasStory sid q = false) →
      p.stories = some (spre ++ s0 :: spost) →
      (∀ t ∈ spre, t.id ≠ sid) → s0.id = sid →
      (let st := mergeStory u now s0
       updateStory now (pre ++ p :: post) sid u =
        ⟨some st,
         pre ++ ({ p with
             stories := some (spre ++ st :: spost)
             updatedAt := now }) :: post,
         true, []⟩ ∧ st.updatedAt = now)) ∧
    (∀ (now : Nat) (projects : List Project) (sid : String)
        (u : StoryUpdates),
      (∀ p ∈ projects, projHasStory sid p = false) →
      updateStory now projects sid u = ⟨none, projects, false, []⟩) := by
  constructor
  · intro now pre post p spre spost s0 sid u hpre hps hspre hs0
    refine ⟨?_, rfl⟩
    simp only [updateStory, updateStoryGo_append_hit hpre hps hspre hs0]
  · intro now projects sid u h
    simp [updateStory, updateStoryGo_eq_none h]

/-- Concrete instantiation of C2_updateStory on wProject. -/
theorem C2_updateStory_witness :
    updateStory 5 [wProject] "s2" ⟨none, none, some "Once"⟩ =
      ⟨some { wStoryB with content := "Once", updatedAt := 5 },
       [{ wProject with
           stories := some [wStoryA, { wStoryB with
             content := "Once", updatedAt := 5 }]
           updatedAt := 5 }], true, []⟩ ∧
    updateStory 5 [wProject] "zz" ⟨none, none, some "Once"⟩ =
      ⟨none, [wProject], false, []⟩ := by
  constructor
  · have h := (C2_updateStory.1 5 [] [] wProject [wStoryA] [] wStoryB "s2"
      ⟨none, none, some "Once"⟩ (by simp) rfl (by decide) rfl).1
    simpa [wProject, wStoryA, wStoryB, mergeStory, mkStory] using h
  · exact C2_updateStory.2 5 [wProject] "zz" ⟨none, none, some "Once"⟩
      (by decide)

/-! ## C8: updateStory frame property -/

/-- Claim C8: updating a story's title returns that story with the new title, and
the persisted snapshot is unchanged everywhere else: the sibling stories
spre and spost are kept verbatim around the updated story, and the projects
before and after the owning project are kept verbatim. -/
theorem C8_updateStory_frame :
    ∀ (now : Nat) (T2 : String) (pre post : List Project) (p : Project)
      (spre spost : List Story) (s0 : Story) (sid : String),
      (∀ q ∈ pre, projHasStory sid q = false) →
      p.stories = some (spre ++ s0 :: spost) →
      (∀ t ∈ spre, t.id ≠ sid) → s0.id = sid →
      (let st := mergeStory ⟨some T2, none, none⟩ now s0
       (updateStory now (pre ++ p :: post) sid
          ⟨some T2, none, none⟩).ret = some st ∧
       st.title = T2 ∧
       (updateStory now (pre ++ p :: post) sid
          ⟨some T2, none, none⟩).projects =
         pre ++ ({ p with
             stories := some (spre ++ st :: spost)
             updatedAt := now }) :: post) := by
  intro now T2 pre post p spre spost s0 sid hpre hps hspre hs0
  refine ⟨?_, rfl, ?_⟩ <;>
    simp only [updateStory, updateStoryGo_append_hit hpre hps hspre hs0]

/-- Concrete instantiation of C8_updateStory_frame on wProject: retitling
story s1 leaves its sibling s2 and the rest of the snapshot unchanged. -/
theorem C8_updateStory_frame_witness :
    (updateStory 6 [wProject] "s1" ⟨some "Part One", none, none⟩).ret =
      some { wStoryA with title := "Part One", updatedAt := 6 } ∧
    (updateStory 6 [wProject] "s1" ⟨some "Part One", none, none⟩).projects =
      [{ wProject with
          stories := some [{ wStoryA with
            title := "Part One", updatedAt := 6 }, wStoryB]
          updatedAt := 6 }] := by
  have h := C8_updateStory_frame 6 "Part One" [] [] wProject [] [wStoryB]
    wStoryA "s1" (by simp) rfl (by simp) rfl
  exact ⟨by simpa [mergeStory, wStoryA, mkStory] using h.1,
    by simpa [mergeStory, wStoryA, mkStory] using h.2.2⟩

/-! ## C3: orphan creation against an unknown projectId -/

/-- Claim C3: when the projectId matches no project, createStory and
createCharacter return the freshly constructed entity but leave the
snapshot completely unchanged: no save occurs and the entity is appended
under no project. -/
theorem C3_orphanCreation :
    (∀ (newId : String) (now : Nat) (projects : List Project)
        (title : String) (descr : Option String) (pid : String),
      (∀ p ∈ projects, p.id ≠ pid) →
      createStory newId now projects title descr pid =
        ⟨mkStory newId now title descr pid, projects, false, []⟩) ∧
    (∀ (newId : String) (now : Nat) (projects : List Project)
        (name : String) (descr : Option String) (pid : String),
      (∀ p ∈ projects, p.id ≠ pid) →
      createCharacter newId now projects name descr pid =
        ⟨mkCharacter newId now name descr pid, projects, false, []⟩) := by
  constructor
  · intro newId now projects title descr pid h
    have hb : ∀ p ∈ projects, ((fun p : Project => p.id == pid) p) = false :=
      fun p hp => by simp [h p hp]
    simp [createStory, replaceFirst_eq_none hb]
  · intro newId now projects name descr pid h
    have hb : ∀ p ∈ projects, ((fun p : Project => p.id == pid) p) = false :=
      fun p hp => by simp [h p hp]
    simp [createCharacter, replaceFirst_eq_none hb]

/-- Concrete instantiation of C3_orphanCreation: creating against the
unknown project id p9 returns the entity and leaves the snapshot alone. -/
theorem C3_orphanCreation_witness :
    createStory "s7" 4 [wProject] "Lost" none "p9" =
      ⟨mkStory "s7" 4 "Lost" none "p9", [wProject], false, []⟩ ∧
    createCharacter "c7" 4 [wProject] "Ghost" none "p9" =
      ⟨mkCharacter "c7" 4 "Ghost" none "p9", [wProject], false, []⟩ :=
  ⟨C3_orphanCreation.1 "s7" 4 [wProject] "Lost" none "p9" (by decide),
   C3_orphanCreation.2 "c7" 4 [wProject] "Ghost" none "p9" (by decide)⟩

/-! ## C10: createCharacter defaults -/

/-- Claim C10: the character returned by createCharacter has role supporting, an
undefined age, empty appearance, personality, backstory and goals, a
description defaulting to the empty string when omitted, and createdAt equal
to updatedAt. -/
theorem C10_createCharacter_defaults :
    ∀ (newId : String) (now : Nat) (projects : List Project)
      (name : String) (descr : Option String) (pid : String),
      (let c := (createCharacter newId now projects name descr pid).ret
       c.role = "supporting" ∧ c.age = none ∧ c.appearance = "" ∧
       c.personality = "" ∧ c.backstory = "" ∧ c.goals = "" ∧
       c.description = descr.getD "" ∧
       (descr = none → c.description = "") ∧
       c.createdAt = c.updatedAt) := by
  intro newId now projects name descr pid
  have hret : (createCharacter newId now projects name descr pid).ret =
      mkCharacter newId now name descr pid := by
    unfold createCharacter
    cases h : replaceFirst (fun p => p.id == pid)
        (fun p => { p with
          characters := some ((p.characters.getD []) ++
            [mkCharacter newId now name descr pid])
          updatedAt := now }) projects with
    | none => simp [h]
    | some r => simp [h]
  rw [hret]
  exact ⟨rfl, rfl, rfl, rfl, rfl, rfl, rfl, fun h => by simp [mkCharacter, h],
    rfl⟩

/-- Concrete instantiation of C10_createCharacter_defaults with an omitted
description. -/
theorem C10_createCharacter_defaults_witness :
    (let c := (createCharacter "c9" 3 [wProject] "Bob" none "p1").ret
     c.role = "supporting" ∧ c.age = none ∧ c.appearance = "" ∧
     c.personality = "" ∧ c.backstory = "" ∧ c.goals = "" ∧
     c.description = (none : Option String).getD "" ∧
     ((none : Option String) = none → c.description = "") ∧
     c.createdAt = c.updatedAt) :=
  C10_createCharacter_defaults "c9" 3 [wProject] "Bob" none "p1"

/-! ## C7: deleting the same entity twice -/

/-- Claim C7: for an id occurring exactly once in the snapshot, the first
deleteStory (deleteCharacter) call returns true, removes exactly that entity
from its owning project's list and persists; the second call with the same
id returns false and leaves the persisted snapshot — in particular the array
length — unchanged and unsaved. -/
theorem C7_deleteTwice :
    (∀ (now now2 : Nat) (pre post : List Project) (p : Project)
        (spre spost : List Story) (s0 : Story) (sid : String),
      (∀ q ∈ pre, projHasStory sid q = false) →
      p.stories = some (spre ++ s0 :: spost) →
      (∀ t ∈ spre, t.id ≠ sid) → s0.id = sid →
      (∀ t ∈ spost, t.id ≠ sid) →
      (∀ q ∈ post, projHasStory sid q = false) →
      (let ps1 := pre ++ ({ p with
          stories := some (spre ++ spost)
          updatedAt := now }) :: post
       deleteStory now (pre ++ p :: post) sid = ⟨true, ps1, true, []⟩ ∧
       deleteStory now2 ps1 sid = ⟨false, ps1, false, []⟩)) ∧
    (∀ (now now2 : Nat) (pre post : List Project) (p : Project)
        (cpre cpost : List Character) (c0 : Character) (cid : String),
      (∀ q ∈ pre, projHasCharacter cid q = false) →
      p.characters = some (cpre ++ c0 :: cpost) →
      (∀ t ∈ cpre, t.id ≠ cid) → c0.id = cid →
      (∀ t ∈ cpost, t.id ≠ cid) →
      (∀ q ∈ post, projHasCharacter cid q = false) →
      (let ps1 := pre ++ ({ p with
          characters := some (cpre ++ cpost)
          updatedAt := now }) :: post
       deleteCharacter now (pre ++ p :: post) cid = ⟨true, ps1, true, []⟩ ∧
       deleteCharacter now2 ps1 cid = ⟨false, ps1, false, []⟩)) := by
  constructor
  · intro now now2 pre post p spre spost s0 sid hpre hps hspre hs0 hspost hpost
    constructor
    · simp only [deleteStory, deleteStoryGo_append_hit hpre hps hspre hs0]
    · have habs : ∀ q ∈ pre ++ ({ p with
          stories := some (spre ++ spost)
          updatedAt := now }) :: post, projHasStory sid q = false := by
        intro q hq
        rcases List.mem_append.mp hq with hq | hq
        · exact hpre q hq
        · rcases List.mem_cons.mp hq with hq | hq
          · subst hq
            have hmem : ∀ t ∈ spre ++ spost, (t.id == sid) = false := by
              intro t ht
              rcases List.mem_append.mp ht with ht | ht
              · simp [hspre t ht]
              · simp [hspost t ht]
            simp only [projHasStory]
            refine List.any_eq_false.mpr ?_
            intro t ht
            simpa using hmem t ht
          · exact hpost q hq
      simp [deleteStory, deleteStoryGo_eq_none habs]
  · intro now now2 pre post p cpre cpost c0 cid hpre hps hcpre hc0 hcpost hpost
    constructor
    · simp only [deleteCharacter, deleteCharacterGo_append_hit hpre hps hcpre hc0]
    · have habs : ∀ q ∈ pre ++ ({ p with
          characters := some (cpre ++ cpost)
          updatedAt := now }) :: post, projHasCharacter cid q = false := by
        intro q hq
        rcases List.mem_append.mp hq with hq | hq
        · exact hpre q hq
        · rcases List.mem_cons.mp hq with hq | hq
          · subst hq
            have hmem : ∀ t ∈ cpre ++ cpost, (t.id == cid) = false := by
              intro t ht
              rcases List.mem_append.mp ht with ht | ht
              · simp [hcpre t ht]
              · simp [hcpost t ht]
            simp only [projHasCharacter]
            refine List.any_eq_false.mpr ?_
            intro t ht
            simpa using hmem t ht
          · exact hpost q hq
      simp [deleteCharacter, deleteCharacterGo_eq_none habs]

/-- Concrete instantiation of C7_deleteTwice on wProject: deleting story s1
then again, and character c1 then again. -/
theorem C7_deleteTwice_witness :
    (deleteStory 7 [wProject] "s1" =
      ⟨true, [{ wProject with stories := some [wStoryB], updatedAt := 7 }],
        true, []⟩ ∧
     deleteStory 8 [{ wProject with
        stories := some [wStoryB], updatedAt := 7 }] "s1" =
      ⟨false, [{ wProject with stories := some [wStoryB], updatedAt := 7 }],
        false, []⟩) ∧
    (deleteCharacter 7 [wProject] "c1" =
      ⟨true, [{ wProject with characters := some [], updatedAt := 7 }],
        true, []⟩ ∧
     deleteCharacter 8 [{ wProject with
        characters := some [], updatedAt := 7 }] "c1" =
      ⟨false, [{ wProject with characters := some [], updatedAt := 7 }],
        false, []⟩) := by
  constructor
  · have h := C7_deleteTwice.1 7 8 [] [] wProject [] [wStoryB] wStoryA "s1"
      (by simp) rfl (by simp) rfl (by decide) (by simp)
    exact ⟨by simpa using h.1, by simpa using h.2⟩
  · have h := C7_deleteTwice.2 7 8 [] [] wProject [] [] wCharA "c1"
      (by simp) rfl (by simp) rfl (by simp) (by simp)
    exact ⟨by simpa using h.1, by simpa using h.2⟩

/-! ## C9: parent updatedAt dominates children after child mutations -/

/-- Claim C9: immediately after createStory, updateStory, createCharacter or
updateCharacter touches a child of a project, the owning project's updatedAt
(stamped to now) is greater than or equal to the updatedAt of every story
and character it contains, provided the pre-existing children were last
touched no later than now (timestamps do not run backwards). -/
theorem C9_parentTimestamp :
    (∀ (newId : String) (now : Nat) (title : String) (descr : Option String)
        (pid : String) (pre post : List Project) (p : Project),
      (∀ q ∈ pre, q.id ≠ pid) → p.id = pid →
      (∀ s ∈ p.stories.getD [], s.updatedAt ≤ now) →
      (∀ c ∈ p.characters.getD [], c.updatedAt ≤ now) →
      (let p2 : Project := { p with
          stories := some (p.stories.getD [] ++
            [mkStory newId now title descr pid])
          updatedAt := now }
       (createStory newId now (pre ++ p :: post) title descr pid).projects =
         pre ++ p2 :: post ∧
       (∀ s ∈ p2.stories.getD [], s.updatedAt ≤ p2.updatedAt) ∧
       (∀ c ∈ p2.characters.getD [], c.updatedAt ≤ p2.updatedAt))) ∧
    (∀ (now : Nat) (u : StoryUpdates) (pre post : List Project) (p : Project)
        (spre spost : List Story) (s0 : Story) (sid : String),
      (∀ q ∈ pre, projHasStory sid q = false) →
      p.stories = some (spre ++ s0 :: spost) →
      (∀ t ∈ spre, t.id ≠ sid) → s0.id = sid →
      (∀ s ∈ spre ++ s0 :: spost, s.updatedAt ≤ now) →
      (∀ c ∈ p.characters.getD [], c.updatedAt ≤ now) →
      (let p2 : Project := { p with
          stories := some (spre ++ mergeStory u now s0 :: spost)
          updatedAt := now }
       (updateStory now (pre ++ p :: post) sid u).projects =
         pre ++ p2 :: post ∧
       (∀ s ∈ p2.stories.getD [], s.updatedAt ≤ p2.updatedAt) ∧
       (∀ c ∈ p2.characters.getD [], c.updatedAt ≤ p2.updatedAt))) ∧
    (∀ (newId : String) (now : Nat) (name : String) (descr : Option String)
        (pid : String) (pre post : List Project) (p : Project),
      (∀ q ∈ pre, q.id ≠ pid) → p.id = pid →
      (∀ s ∈ p.stories.getD [], s.updatedAt ≤ now) →
      (∀ c ∈ p.characters.getD [], c.updatedAt ≤ now) →
      (let p2 : Project := { p with
          characters := some (p.characters.getD [] ++
            [mkCharacter newId now name descr pid])
          updatedAt := now }
       (createCharacter newId now (pre ++ p :: post) name descr pid).projects =
         pre ++ p2 :: post ∧
       (∀ s ∈ p2.stories.getD [], s.updatedAt ≤ p2.updatedAt) ∧
       (∀ c ∈ p2.characters.getD [], c.updatedAt ≤ p2.updatedAt))) ∧
    (∀ (now : Nat) (u : CharacterUpdates) (pre post : List Project)
        (p : Project) (cpre cpost : List Character) (c0 : Character)
        (cid : String),
      (∀ q ∈ pre, projHasCharacter cid q = false) →
      p.characters = some (cpre ++ c0 :: cpost) →
      (∀ t ∈ cpre, t.id ≠ cid) → c0.id = cid →
      (∀ s ∈ p.stories.getD [], s.updatedAt ≤ now) →
      (∀ c ∈ cpre ++ c0 :: cpost, c.updatedAt ≤ now) →
      (let p2 : Project := { p with
          characters := some (cpre ++ mergeCharacter u now c0 :: cpost)
          updatedAt := now }
       (updateCharacter now (pre ++ p :: post) cid u).projects =
         pre ++ p2 :: post ∧
       (∀ s ∈ p2.stories.getD [], s.updatedAt ≤ p2.updatedAt) ∧
       (∀ c ∈ p2.characters.getD [], c.updatedAt ≤ p2.updatedAt))) := by
  refine ⟨?_, ?_, ?_, ?_⟩
  · intro newId now title descr pid pre post p hpre hp hs hc
    have hb : ∀ q ∈ pre, ((fun q : Project => q.id == pid) q) = false :=
      fun q hq => by simp [hpre q hq]
    have hx : ((fun q : Project => q.id == pid) p) = true := by simp [hp]
    refine ⟨?_, ?_, ?_⟩
    · simp only [createStory, replaceFirst_append_hit hb hx]
    · intro s hsm
      rcases List.mem_append.mp hsm with h1 | h1
      · exact hs s h1
      · rcases List.mem_singleton.mp h1 with rfl
        exact le_refl now
    · intro c hcm
      exact hc c hcm
  · intro now u pre post p spre spost s0 sid hpre hps hspre hs0 hs hc
    refine ⟨?_, ?_, ?_⟩
    · simp only [updateStory, updateStoryGo_append_hit hpre hps hspre hs0]
    · intro s hsm
      rcases List.mem_append.mp hsm with h1 | h1
      · exact hs s (List.mem_append_left _ h1)
      · rcases List.mem_cons.mp h1 with h2 | h2
        · subst h2
          exact le_refl now
        · exact hs s (List.mem_append_right _ (List.mem_cons_of_mem _ h2))
    · intro c hcm
      exact hc c hcm
  · intro newId now name descr pid pre post p hpre hp hs hc
    have hb : ∀ q ∈ pre, ((fun q : Project => q.id == pid) q) = false :=
      fun q hq => by simp [hpre q hq]
    have hx : ((fun q : Project => q.id == pid) p) = true := by simp [hp]
    refine ⟨?_, ?_, ?_⟩
    · simp only [createCharacter, replaceFirst_append_hit hb hx]
    · intro s hsm
      exact hs s hsm
    · intro c hcm
      rcases List.mem_append.mp hcm with h1 | h1
      · exact hc c h1
      · rcases List.mem_singleton.mp h1 with rfl
        exact le_refl now
  · intro now u pre post p cpre cpost c0 cid hpre hps hcpre hc0 hs hc
    refine ⟨?_, ?_, ?_⟩
    · simp only [updateCharacter, updateCharacterGo_append_hit hpre hps hcpre hc0]
    · intro s hsm
      exact hs s hsm
    · intro c hcm
      rcases List.mem_append.mp hcm with h1 | h1
      · exact hc c (List.mem_append_left _ h1)
      · rcases List.mem_cons.mp h1 with h2 | h2
        · subst h2
          exact le_refl now
        · exact hc c (List.mem_append_right _ (List.mem_cons_of_mem _ h2))

/-- Concrete instantiation of C9_parentTimestamp on wProject for all four
child mutators at time 9. -/
theorem C9_parentTimestamp_witness :
    (let p2 : Project := { wProject with
        stories := some (wProject.stories.getD [] ++
          [mkStory "s9" 9 "Ch9" none "p1"])
        updatedAt := 9 }
     (createStory "s9" 9 ([] ++ wProject :: []) "Ch9" none "p1").projects =
       [] ++ p2 :: [] ∧
     (∀ s ∈ p2.stories.getD [], s.updatedAt ≤ p2.updatedAt) ∧
     (∀ c ∈ p2.characters.getD [], c.updatedAt ≤ p2.updatedAt)) ∧
    (let p2 : Project := { wProject with
        stories := some ([] ++
          mergeStory ⟨some "T", none, none⟩ 9 wStoryA :: [wStoryB])
        updatedAt := 9 }
     (updateStory 9 ([] ++ wProject :: []) "s1"
        ⟨some "T", none, none⟩).projects = [] ++ p2 :: [] ∧
     (∀ s ∈ p2.stories.getD [], s.updatedAt ≤ p2.updatedAt) ∧
     (∀ c ∈ p2.characters.getD [], c.updatedAt ≤ p2.updatedAt)) ∧
    (let p2 : Project := { wProject with
        characters := some (wProject.characters.getD [] ++
          [mkCharacter "c9" 9 "Bob" none "p1"])
        updatedAt := 9 }
     (createCharacter "c9" 9 ([] ++ wProject :: []) "Bob" none "p1").projects =
       [] ++ p2 :: [] ∧
     (∀ s ∈ p2.stories.getD [], s.updatedAt ≤ p2.updatedAt) ∧
     (∀ c ∈ p2.characters.getD [], c.updatedAt ≤ p2.updatedAt)) ∧
    (let p2 : Project := { wProject with
        characters := some ([] ++
          mergeCharacter ⟨some "Bobby", none, none⟩ 9 wCharA :: [])
        updatedAt := 9 }
     (updateCharacter 9 ([] ++ wProject :: []) "c1"
        ⟨some "Bobby", none, none⟩).projects = [] ++ p2 :: [] ∧
     (∀ s ∈ p2.stories.getD [], s.updatedAt ≤ p2.updatedAt) ∧
     (∀ c ∈ p2.characters.getD [], c.updatedAt ≤ p2.updatedAt)) := by
  refine ⟨?_, ?_, ?_, ?_⟩
  · exact C9_parentTimestamp.1 "s9" 9 "Ch9" none "p1" [] [] wProject
      (by simp) rfl (by decide) (by decide)
  · exact C9_parentTimestamp.2.1 9 ⟨some "T", none, none⟩ [] [] wProject
      [] [wStoryB] wStoryA "s1" (by simp) rfl (by simp) rfl
      (by decide) (by decide)
  · exact C9_parentTimestamp.2.2.1 "c9" 9 "Bob" none "p1" [] [] wProject
      (by simp) rfl (by decide) (by decide)
  · exact C9_parentTimestamp.2.2.2 9 ⟨some "Bobby", none, none⟩ [] []
      wProject [] [] wCharA "c1" (by simp) rfl (by simp) rfl
      (by decide) (by decide)

/-! ## C4: active-personality exclusivity -/

theorem setActive_ids (ps : List AIPersonality) (id : String) :
    (setActivePersonality ps id).map AIPersonality.id =
      ps.map AIPersonality.id := by
  unfold setActivePersonality
  split
  · simp [List.map_map, Function.comp]
  · rfl

theorem filter_id_length_one {ps : List AIPersonality} {id : String}
    (hnd : (ps.map AIPersonality.id).Nodup) (hin : ∃ p ∈ ps, p.id = id) :
    (ps.filter (fun p => p.id == id)).length = 1 := by
  induction ps with
  | nil => simp at hin
  | cons p ps ih =>
    rw [List.map_cons, List.nodup_cons] at hnd
    by_cases hm : p.id = id
    · have hnil : ps.filter (fun q => q.id == id) = [] := by
        refine List.filter_eq_nil_iff.mpr ?_
        intro q hq hqid
        exact hnd.1 (by
          rw [List.mem_map]
          exact ⟨q, hq, by
            have : q.id = id := by simpa using hqid
            rw [this, hm]⟩)
      simp [List.filter_cons, hm, hnil]
    · have hin2 : ∃ q ∈ ps, q.id = id := by
        rcases hin with ⟨q, hq, hqid⟩
        rcases List.mem_cons.mp hq with h2 | h2
        · exact absurd (h2 ▸ hqid) hm
        · exact ⟨q, h2, hqid⟩
      simpa [List.filter_cons, hm] using ih hnd.2 hin2

theorem countActive_setActive {ps : List AIPersonality} (id : String)
    (hnd : (ps.map AIPersonality.id).Nodup) (h1 : countActive ps = 1) :
    countActive (setActivePersonality ps id) = 1 := by
  unfold setActivePersonality
  split
  case isTrue hin =>
    have hin2 : ∃ p ∈ ps, p.id = id := by
      rcases List.any_eq_true.mp hin with ⟨p, hp, hpid⟩
      exact ⟨p, hp, by simpa using hpid⟩
    have hcomp : countActive (ps.map (fun p =>
        { p with isActive := p.id == id })) =
        (ps.filter (fun p => p.id == id)).length := by
      unfold countActive
      rw [List.filter_map]
      simp only [List.length_map]
      rfl
    rw [hcomp]
    exact filter_id_length_one hnd hin2
  case isFalse hout => exact h1

theorem countActive_foldl (calls : List String) :
    ∀ ps : List AIPersonality,
      ps.map AIPersonality.id = initialPersonalities.map AIPersonality.id →
      countActive ps = 1 →
      countActive (calls.foldl setActivePersonality ps) = 1 := by
  induction calls with
  | nil => intro ps _ h2; simpa using h2
  | cons c cs ih =>
    intro ps h1 h2
    refine ih (setActivePersonality ps c) ?_ ?_
    · rw [setActive_ids, h1]
    · exact countActive_setActive c (by rw [h1]; decide) h2

/-- Claim C4: starting from the five-profile registry in which exactly the mentor
is active, after any sequence of setActivePersonality calls exactly one
profile has isActive = true, and a call with an id no profile carries is a
complete no-op, so it never changes which profile is active. -/
theorem C4_personalityExclusivity :
    (countActive initialPersonalities = 1 ∧
     activeIds initialPersonalities = ["mentor"]) ∧
    (∀ calls : List String,
      countActive (calls.foldl setActivePersonality initialPersonalities)
        = 1) ∧
    (∀ (ps : List AIPersonality) (id : String),
      (∀ p ∈ ps, p.id ≠ id) → setActivePersonality ps id = ps) := by
  refine ⟨by decide, ?_, ?_⟩
  · intro calls
    exact countActive_foldl calls initialPersonalities rfl (by decide)
  · intro ps id h
    have hany : ps.any (fun p => p.id == id) = false := by
      refine List.any_eq_false.mpr ?_
      intro p hp
      simpa using h p hp
    simp [setActivePersonality, hany]

/-- Concrete instantiation of C4_personalityExclusivity: a valid switch to
the critic followed by a call with the unknown id ghost leaves exactly one
profile active, and the unknown-id call does not change the registry. -/
theorem C4_personalityExclusivity_witness :
    countActive
      (List.foldl setActivePersonality initialPersonalities
        ["critic", "ghost"]) = 1 ∧
    setActivePersonality initialPersonalities "ghost" =
      initialPersonalities :=
  ⟨C4_personalityExclusivity.2.1 ["critic", "ghost"],
   C4_personalityExclusivity.2.2 initialPersonalities "ghost" (by decide)⟩

/-! ## C5: startWritingSession -/

theorem validateMood_mem {vocab : List String} {mood : Option String}
    {m : String} (h : validateMood vocab mood = some m) : m ∈ vocab := by
  unfold validateMood at h
  cases mood with
  | none => simp at h
  | some c =>
    simp at h
    exact h.2 ▸ h.1

/-- Claim C5: the session built by startWritingSession has startTime = now, all
numeric metrics (wordCount, totalWords, wordsAdded, timeSpent, productivity)
zero, isActive = true, and a mood equal to the candidate when validateMood
accepts it and neutral otherwise; in particular a rejected candidate always
yields neutral.  The mood vocabulary is an enumerated list of mood words and
never contains the empty string. -/
theorem C5_startSession :
    ∀ (vocab : List String) (title : String) (contentId : Option String)
      (mood : Option String) (now : Nat) (rand : String),
      "" ∉ vocab →
      (let s := startWritingSession vocab title contentId mood now rand
       s.startTime = now ∧ s.wordCount = 0 ∧ s.totalWords = 0 ∧
       s.wordsAdded = 0 ∧ s.timeSpent = 0 ∧ s.productivity = 0 ∧
       s.isActive = true ∧
       s.mood = some (match validateMood vocab mood with
         | some m => m
         | none => "neutral") ∧
       (validateMood vocab mood = none → s.mood = some "neutral")) := by
  intro vocab title contentId mood now rand hv
  refine ⟨rfl, rfl, rfl, rfl, rfl, rfl, rfl, ?_, ?_⟩
  · cases h : validateMood vocab mood with
    | none => simp [startWritingSession, jsOrString, h]
    | some m =>
      have hm : m ∈ vocab := validateMood_mem h
      have hne : m ≠ "" := fun e => hv (e ▸ hm)
      simp [startWritingSession, jsOrString, h, hne]
  · intro h0
    simp [startWritingSession, jsOrString, h0]

/-- An example mood vocabulary for concrete evaluation. -/
def wVocab : List String := ["happy", "sad", "neutral", "excited", "stressed"]

/-- Concrete instantiation of C5_startSession: the out-of-vocabulary mood
furious is replaced by neutral. -/
theorem C5_startSession_witness :
    ("" ∉ wVocab) ∧
    (let s := startWritingSession wVocab "Morning pages" none
        (some "furious") 100 "abc"
     s.startTime = 100 ∧ s.wordCount = 0 ∧ s.totalWords = 0 ∧
     s.wordsAdded = 0 ∧ s.timeSpent = 0 ∧ s.productivity = 0 ∧
     s.isActive = true ∧
     s.mood = some (match validateMood wVocab (some "furious") with
       | some m => m
       | none => "neutral") ∧
     (validateMood wVocab (some "furious") = none →
       s.mood = some "neutral")) :=
  ⟨by decide, C5_startSession wVocab "Morning pages" none (some "furious")
    100 "abc" (by decide)⟩

/-! ## C6: session word-delta metrics -/

/-- Claim C6: after every recomputation triggered by a content change, wordsAdded
equals max(0, wordCount − totalWords at the last checkpoint) and hence is
never negative, even when the content shrinks; totalWords never decreases
across any sequence of content changes; and both start at zero in a fresh
session. -/
theorem C6_sessionMetrics :
    (∀ (s : WritingSession) (c : String),
      (updateSessionContent s c).wordsAdded =
        max 0 ((updateSessionContent s c).wordCount - s.totalWords) ∧
      0 ≤ (updateSessionContent s c).wordsAdded ∧
      s.totalWords ≤ (updateSessionContent s c).totalWords) ∧
    (∀ (s : WritingSession) (cs : List String),
      s.totalWords ≤ (cs.foldl updateSessionContent s).totalWords) ∧
    (∀ (vocab : List String) (title : String) (contentId : Option String)
        (mood : Option String) (now : Nat) (rand : String),
      (startWritingSession vocab title contentId mood now rand).wordsAdded
        = 0 ∧
      (startWritingSession vocab title contentId mood now rand).totalWords
        = 0) := by
  have hstep : ∀ (s : WritingSession) (c : String),
      s.totalWords ≤ (updateSessionContent s c).totalWords := by
    intro s c
    exact le_add_of_nonneg_right (le_max_left 0 _)
  refine ⟨?_, ?_, ?_⟩
  · intro s c
    exact ⟨rfl, le_max_left 0 _, hstep s c⟩
  · intro s cs
    induction cs generalizing s with
    | nil => exact le_refl _
    | cons c cs ih =>
      exact le_trans (hstep s c) (ih (updateSessionContent s c))
  · intro vocab title contentId mood now rand
    exact ⟨rfl, rfl⟩
